import Mathlib

/-!
A shallow embedding of the callme RPC library (src/callme/proxy.py and
src/callme/server.py) together with proofs about the request/response
correlation protocol, the server's serial and threaded request callbacks,
the publisher thread, and the client wait loop.

Transport operations (kombu publish/consume/ack, connection handling) are
external collaborators; they appear here as entries of an action trace so
that ordering and frame properties can be stated.  Python exceptions are
modelled with `Except`; wall-clock time in the wait loop is modelled by
ideal poll ticks of one second each.
-/

namespace Callme

/-- Opaque values carried as RPC arguments, results and error payloads. -/
inductive Value where
  | vint : Int → Value
  | vstr : String → Value
  | vnone : Value
deriving DecidableEq, Repr

/-- Modelled from the spec: `callme/protocol.py` is not under src/.  The spec
defines the protocol message `Response{status ∈ {OK, ERROR}, payload}`. -/
inductive Status where
  | ok : Status
  | error : Status
deriving DecidableEq, Repr

/-- Modelled from the spec: `callme/protocol.py` is not under src/.  The spec's
`Response` carries a status and a payload; `proxy.py` reads the payload as
`response['result']` and the status as `response['status']`. -/
structure RpcResponse where
  status : Status
  result : Value
deriving DecidableEq, Repr

/-- The protocol request message: `dict(func_name=..., func_args=...)` as built
by `Proxy.__request` and consumed by the server callbacks. -/
structure RpcRequest where
  func_name : String
  func_args : List Value
deriving DecidableEq, Repr

/-- The deserialized body of a delivered message: either a well-formed
`RpcRequest` or anything else (the `isinstance` check in the server
callbacks distinguishes the two). -/
inductive Body where
  | rpc : RpcRequest → Body
  | other : String → Body
deriving DecidableEq, Repr

/-- The transport-level properties of a delivered message that the code
reads: `message.properties['correlation_id']` and
`message.properties['reply_to']`. -/
structure Message where
  correlation_id : String
  reply_to : String
deriving DecidableEq, Repr

/-- A Python object as passed to `register_function`: whether `callable(func)`
holds, its `__name__`, and its behaviour when called (an exception becomes
`Except.error` carrying the exception's description). -/
structure PyObject where
  callable : Bool
  name : String
  call : List Value → Except String Value

/-- The `_func_dict` handler registry, as an insertion-ordered dict from
method name to handler. -/
abbrev FuncDict := List (String × PyObject)

/-- Python dict assignment `d[k] = v`: overwrite in place if the key exists,
otherwise append. -/
def dictInsert : FuncDict → String → PyObject → FuncDict
  | [], k, v => [(k, v)]
  | (k', v') :: rest, k, v =>
      if k' = k then (k, v) :: rest else (k', v') :: dictInsert rest k v

/-- Python dict lookup `d[k]`, with `none` for the `KeyError` case. -/
def dictGet : FuncDict → String → Option PyObject
  | [], _ => none
  | (k', v') :: rest, k => if k' = k then some v' else dictGet rest k

/-- The body of the `try` block shared by `_on_request` and `exec_func`:
`self._func_dict[rpc_req.func_name](*rpc_req.func_args)`.  A missing key
raises `KeyError`; a raising handler propagates its own exception; both are
caught by the enclosing `except Exception`. -/
def handlerOutcome (d : FuncDict) (req : RpcRequest) : Except String Value :=
  match dictGet d req.func_name with
  | none => .error ("KeyError: " ++ req.func_name)
  | some f => f.call req.func_args

/-- Modelled from the spec: `callme/protocol.py` is not under src/.  The server
wraps a handler result in `RpcResponse(result)`; per the spec a successful
result gives `{status: OK, payload: value}` and a caught exception gives
`{status: ERROR, payload: <description>}`. -/
def mkResponse : Except String Value → RpcResponse
  | .ok v => ⟨Status.ok, v⟩
  | .error e => ⟨Status.error, Value.vstr e⟩

/-- The `ResultSet` completion entry: the completion entry queued by a threaded worker, carrying
everything the Publisher needs to send the result back. -/
structure ResultSet where
  rpc_resp : RpcResponse
  correlation_id : String
  reply_to : String
deriving DecidableEq, Repr

/-- Observable actions of the server code against its external collaborators,
in the order the code performs them. -/
inductive Action where
  | execute : String → Action
  | ack : Action
  | publish : RpcResponse → String → String → Action
  | spawnWorker : String → Action
  | enqueue : ResultSet → Action
  | stopPublisher : Action
  | cancelConsumer : Action
  | closeConnection : Action
  | closePublishConnection : Action
deriving DecidableEq, Repr

/-- Embeds `Server._on_request` (serial mode): drop non-`RpcRequest` bodies; otherwise
run the handler inside try/except, then `message.ack()`, then publish the
response to the `reply_to` exchange tagged with the correlation id. -/
def onRequest (d : FuncDict) (body : Body) (msg : Message) : List Action :=
  match body with
  | .other _ => []
  | .rpc req =>
      let rpc_resp := mkResponse (handlerOutcome d req)
      [Action.execute req.func_name, Action.ack,
       Action.publish rpc_resp msg.correlation_id msg.reply_to]

/-- Embeds `Server._on_request_threaded`: drop non-`RpcRequest` bodies; otherwise
`message.ack()` immediately, then spawn a worker thread named after the
correlation id. -/
def onRequestThreaded (d : FuncDict) (body : Body) (msg : Message) :
    List Action :=
  match body with
  | .other _ => []
  | .rpc req =>
      let _ := d
      let _ := req
      [Action.ack, Action.spawnWorker msg.correlation_id]

/-- The worker body `exec_func` spawned by `_on_request_threaded`: run the
handler inside try/except and put a `ResultSet` on the result queue; it
never publishes. -/
def execFunc (d : FuncDict) (req : RpcRequest) (msg : Message) : List Action :=
  [Action.execute req.func_name,
   Action.enqueue ⟨mkResponse (handlerOutcome d req),
                   msg.correlation_id, msg.reply_to⟩]

/-- The observable server state that the lifecycle claims mention. -/
structure ServerState where
  func_dict : FuncDict
  threaded : Bool
  do_run : Bool
  is_stopped : Bool

/-- The server is `Running`: `start` has set `_is_stopped = False` and `stop`
has not yet set `_do_run = False`. -/
def ServerState.running (st : ServerState) : Prop :=
  st.do_run = true ∧ st.is_stopped = false

/-- One iteration of the receive loop in `Server.start` in which
`drain_events` delivers a message: the registered callback runs and returns
normally, and the loop state is untouched by it. -/
def serverStep (st : ServerState) (body : Body) (msg : Message) :
    ServerState × List Action :=
  (st, if st.threaded then onRequestThreaded st.func_dict body msg
       else onRequest st.func_dict body msg)

/-- The teardown sequence of the `except Exception` branch of the receive loop
in `Server.start`: stop the publisher thread (threaded mode only), cancel
the consumer, close the receive connection, close the publish connection. -/
def fatalTeardown (threaded : Bool) : List Action :=
  (if threaded then [Action.stopPublisher] else []) ++
  [Action.cancelConsumer, Action.closeConnection,
   Action.closePublishConnection]

/-- The `except Exception` branch of the receive loop in `Server.start`: tear
down, set `_is_stopped = True` and return.  `_func_dict` is untouched. -/
def onFatalError (st : ServerState) : ServerState × List Action :=
  ({ st with is_stopped := true }, fatalTeardown st.threaded)

/-- Embeds `Server.register_function`: raise `ValueError` when `func` is not
callable, otherwise store it under `name` (or `func.__name__` when no name
is given).  The first component is the call's outcome, the second the
registry afterwards. -/
def registerFunction (d : FuncDict) (func : PyObject) (name : Option String) :
    Except String Unit × FuncDict :=
  if func.callable then
    (Except.ok (), dictInsert d (name.getD func.name) func)
  else
    (Except.error ("The '" ++ func.name ++ "' is not callable."), d)

/-- Every handler in the registry satisfies `callable`. -/
def allCallable (d : FuncDict) : Prop :=
  ∀ p ∈ d, p.2.callable = true

/-- Embeds `Publisher.run` with ideal timing: loop checks are numbered 0,1,2,…, and
`stopAt` is the first check at which `stop_it` is observed to be true.
Before that, each iteration dequeues and publishes one entry of the queue if
one is available, else passes on `queue.Empty`.  The value is the list of
entries published before the thread exits. -/
def publisherRun : Nat → List ResultSet → List ResultSet
  | 0, _ => []
  | _ + 1, [] => []
  | n + 1, r :: rs => r :: publisherRun n rs

/-- The client-side state that `Proxy._on_response` reads and writes:
`_corr_id` (None before any request), `response` and `_is_received`. -/
structure ProxyState where
  corr_id : Option String
  response : Option RpcResponse
  is_received : Bool
deriving DecidableEq, Repr

/-- Embeds `Proxy._on_response`: when the pending correlation id equals the incoming
message's, store the body, set `_is_received` and ack; otherwise do nothing.
The boolean records whether `message.ack()` was called. -/
def onResponse (st : ProxyState) (body : RpcResponse) (msg : Message) :
    ProxyState × Bool :=
  if st.corr_id = some msg.correlation_id then
    ({ st with response := some body, is_received := true }, true)
  else
    (st, false)

/-- The tail of `Proxy.__request` once a matching response has arrived: read
`response['result']`, raise `RemoteException(result)` when
`response['status'] == ERROR`, else return the result.  `Except.error`
models the raise. -/
def requestResult (resp : RpcResponse) : Except Value Value :=
  let result := resp.result
  if resp.status = Status.error then Except.error result
  else Except.ok result

/-- Embeds `_Method.__getattr__` iterated: starting from the name captured by
`Proxy.__getattr__`, each further attribute access extends the accumulated
name with `"%s.%s" % (self.__name, name)`. -/
def methodName : String → List String → String
  | base, [] => base
  | base, n :: rest => methodName (base ++ "." ++ n) rest

/-- The dot-joined form of a method path, written from the spec's words
(\"resolved to a single dot-joined string\") for comparison with
`methodName`. -/
def dotJoin : List String → String
  | [] => ""
  | [s] => s
  | s :: rest@(_ :: _) => s ++ "." ++ dotJoin rest

/-- Embeds `_Method.__call__` into `Proxy.__request`: the emitted request carries the
accumulated method name and the call's positional arguments. -/
def emitRequest (name : String) (args : List Value) : RpcRequest :=
  ⟨name, args⟩

/-- Embeds `Proxy._wait_for_result` against a server that never responds, with ideal
timing: every `drain_events(timeout=1)` call blocks one full poll tick (one
second) and raises `socket.timeout`; `_is_received` never becomes true.
`n` is the elapsed whole seconds so far, `fuel` bounds the iterations so the
loop is total; the value is `some e` when the loop raises `RpcTimeout` with
elapsed time `e`, and `none` when the fuel runs out first. -/
def waitForResult (t : ℚ) : Nat → Nat → Option Nat
  | 0, _ => none
  | fuel + 1, n =>
      let e := n + 1
      if 0 < t ∧ t < (e : ℚ) then some e
      else waitForResult t fuel e


/-- Action `a` occupies an earlier position than action `b` in the trace. -/
def precedes (a b : Action) (tr : List Action) : Prop :=
  ∃ i j, i < j ∧ tr.get? i = some a ∧ tr.get? j = some b

/-- Looking up the key just inserted finds the inserted handler. -/
lemma dictGet_dictInsert_self (d : FuncDict) (k : String) (v : PyObject) :
    dictGet (dictInsert d k v) k = some v := by
  induction d with
  | nil => simp [dictInsert, dictGet]
  | cons p rest ih =>
      obtain ⟨k', v'⟩ := p
      by_cases h : k' = k
      · simp [dictInsert, dictGet, h]
      · simp [dictInsert, dictGet, h, ih]

/-- Inserting a callable handler preserves the all-callable invariant. -/
lemma allCallable_dictInsert (d : FuncDict) (k : String) (v : PyObject)
    (hd : allCallable d) (hv : v.callable = true) :
    allCallable (dictInsert d k v) := by
  induction d with
  | nil =>
      intro p hp
      simp [dictInsert] at hp
      simp [hp, hv]
  | cons q rest ih =>
      obtain ⟨k', v'⟩ := q
      have hd' : allCallable rest := fun p hp => hd p (List.mem_cons_of_mem _ hp)
      intro p hp
      by_cases h : k' = k
      · simp [dictInsert, h] at hp
        rcases hp with hp | hp
        · simp [hp, hv]
        · exact hd p (List.mem_cons_of_mem _ hp)
      · simp [dictInsert, h] at hp
        rcases hp with hp | hp
        · exact hd p (by simp [hp])
        · exact ih hd' p hp

/-- C1: once a matching response has arrived, `Proxy.__request` returns the
response payload unchanged when the status is OK, and when the status is
ERROR it raises `RemoteException` carrying the payload as the cause and
never returns normally. -/
theorem request_raises_on_error_status (resp : RpcResponse) :
    (resp.status = Status.ok → requestResult resp = Except.ok resp.result) ∧
    (resp.status = Status.error →
      requestResult resp = Except.error resp.result ∧
      ∀ v, requestResult resp ≠ Except.ok v) := by
  constructor
  · intro h
    simp [requestResult, h]
  · intro h
    simp [requestResult, h]

/-- C1 witness: concrete OK and ERROR responses. -/
theorem request_raises_on_error_status_witness :
    requestResult ⟨Status.ok, Value.vint 7⟩ = Except.ok (Value.vint 7) ∧
    requestResult ⟨Status.error, Value.vstr "boom"⟩ =
      Except.error (Value.vstr "boom") :=
  ⟨(request_raises_on_error_status ⟨Status.ok, Value.vint 7⟩).1 rfl,
   ((request_raises_on_error_status ⟨Status.error, Value.vstr "boom"⟩).2
     rfl).1⟩

/-- C7: in serial mode the ack happens after handler execution and before the
publish; in threaded mode the ack is the first action and happens before
the worker is spawned, and the worker itself never publishes — it only
enqueues the self-contained `ResultSet`. -/
theorem ack_ordering_by_mode (d : FuncDict) (req : RpcRequest)
    (msg : Message) :
    precedes (Action.execute req.func_name) Action.ack
      (onRequest d (Body.rpc req) msg) ∧
    precedes Action.ack
      (Action.publish (mkResponse (handlerOutcome d req))
        msg.correlation_id msg.reply_to)
      (onRequest d (Body.rpc req) msg) ∧
    (onRequestThreaded d (Body.rpc req) msg).get? 0 = some Action.ack ∧
    precedes Action.ack (Action.spawnWorker msg.correlation_id)
      (onRequestThreaded d (Body.rpc req) msg) ∧
    (∀ r c rt, Action.publish r c rt ∉ execFunc d req msg) ∧
    Action.enqueue ⟨mkResponse (handlerOutcome d req),
                    msg.correlation_id, msg.reply_to⟩ ∈ execFunc d req msg := by
  refine ⟨⟨0, 1, by omega, rfl, rfl⟩, ⟨1, 2, by omega, rfl, rfl⟩, rfl,
    ⟨0, 1, by omega, rfl, rfl⟩, ?_, by simp [execFunc]⟩
  intro r c rt hmem
  simp [execFunc] at hmem

/-- C7 witness: the mode-dependent ordering at a concrete request. -/
theorem ack_ordering_by_mode_witness :
    precedes (Action.execute "m") Action.ack
      (onRequest [] (Body.rpc ⟨"m", []⟩) ⟨"c", "r"⟩) ∧
    precedes Action.ack
      (Action.publish (mkResponse (handlerOutcome [] ⟨"m", []⟩)) "c" "r")
      (onRequest [] (Body.rpc ⟨"m", []⟩) ⟨"c", "r"⟩) ∧
    (onRequestThreaded [] (Body.rpc ⟨"m", []⟩) ⟨"c", "r"⟩).get? 0 =
      some Action.ack ∧
    precedes Action.ack (Action.spawnWorker "c")
      (onRequestThreaded [] (Body.rpc ⟨"m", []⟩) ⟨"c", "r"⟩) ∧
    (∀ r c rt, Action.publish r c rt ∉ execFunc [] ⟨"m", []⟩ ⟨"c", "r"⟩) ∧
    Action.enqueue ⟨mkResponse (handlerOutcome [] ⟨"m", []⟩), "c", "r"⟩ ∈
      execFunc [] ⟨"m", []⟩ ⟨"c", "r"⟩ :=
  ack_ordering_by_mode [] ⟨"m", []⟩ ⟨"c", "r"⟩

/-- C8: a delivered body that is not an `RpcRequest` instance is dropped in
both modes: no handler executed, nothing acknowledged or published, no
exception raised, and the server state untouched. -/
theorem malformed_delivery_dropped (d : FuncDict) (msg : Message)
    (raw : String) (st : ServerState) :
    onRequest d (Body.other raw) msg = [] ∧
    onRequestThreaded d (Body.other raw) msg = [] ∧
    serverStep st (Body.other raw) msg = (st, []) := by
  refine ⟨rfl, rfl, ?_⟩
  simp [serverStep, onRequest, onRequestThreaded]

/-- C9: a delivery on the reply channel whose correlation id does not match
the pending call's is discarded without side effect — the proxy state is
unchanged and the message is not acked; only a matching delivery stores the
response, sets the received flag and acks. -/
theorem nonmatching_response_discarded (st : ProxyState) (body : RpcResponse)
    (msg : Message) :
    (st.corr_id ≠ some msg.correlation_id →
      onResponse st body msg = (st, false)) ∧
    (st.corr_id = some msg.correlation_id →
      onResponse st body msg =
        ({ st with response := some body, is_received := true }, true)) := by
  constructor
  · intro h
    simp [onResponse, h]
  · intro h
    simp [onResponse, h]

/-- C9 witness: a concrete non-matching and a concrete matching delivery. -/
theorem nonmatching_response_discarded_witness :
    onResponse ⟨some "x", none, false⟩ ⟨Status.ok, Value.vint 1⟩ ⟨"y", "r"⟩ =
      (⟨some "x", none, false⟩, false) ∧
    onResponse ⟨some "y", none, false⟩ ⟨Status.ok, Value.vint 1⟩ ⟨"y", "r"⟩ =
      (⟨some "y", some ⟨Status.ok, Value.vint 1⟩, true⟩, true) :=
  ⟨(nonmatching_response_discarded ⟨some "x", none, false⟩
      ⟨Status.ok, Value.vint 1⟩ ⟨"y", "r"⟩).1 (by decide),
   (nonmatching_response_discarded ⟨some "y", none, false⟩
      ⟨Status.ok, Value.vint 1⟩ ⟨"y", "r"⟩).2 rfl⟩

/-- C10: `register_function` raises `ValueError` on a non-callable argument
and leaves the registry unchanged; a callable argument is stored under the
given name (or its own `__name__`), so an all-callable registry stays
all-callable. -/
theorem register_function_callable_guard (d : FuncDict) (func : PyObject)
    (name : Option String) :
    (func.callable = false →
      registerFunction d func name =
        (Except.error ("The '" ++ func.name ++ "' is not callable."), d)) ∧
    (func.callable = true →
      (registerFunction d func name).1 = Except.ok () ∧
      dictGet (registerFunction d func name).2 (name.getD func.name) =
        some func) ∧
    (allCallable d → allCallable (registerFunction d func name).2) := by
  refine ⟨?_, ?_, ?_⟩
  · intro h
    simp [registerFunction, h]
  · intro h
    simp [registerFunction, h, dictGet_dictInsert_self]
  · intro hd
    by_cases h : func.callable = true
    · simpa [registerFunction, h] using
        allCallable_dictInsert d (name.getD func.name) func hd h
    · simp only [Bool.not_eq_true] at h
      simpa [registerFunction, h] using hd

/-- C10 witness: a non-callable object is rejected with the registry left
empty; a callable one is stored under its own name. -/
theorem register_function_callable_guard_witness :
    registerFunction [] ⟨false, "bad", fun _ => Except.error "nope"⟩ none =
      (Except.error "The 'bad' is not callable.", []) ∧
    dictGet (registerFunction []
        ⟨true, "good", fun _ => Except.ok Value.vnone⟩ none).2 "good" =
      some ⟨true, "good", fun _ => Except.ok Value.vnone⟩ :=
  ⟨(register_function_callable_guard []
      ⟨false, "bad", fun _ => Except.error "nope"⟩ none).1 rfl,
   ((register_function_callable_guard []
      ⟨true, "good", fun _ => Except.ok Value.vnone⟩ none).2.1 rfl).2⟩

/-- Extending the head segment of a dot-joined path associates with joining. -/
lemma dotJoin_extend (base n : String) (rest : List String) :
    dotJoin ((base ++ "." ++ n) :: rest) = base ++ "." ++ dotJoin (n :: rest) := by
  cases rest with
  | nil => simp [dotJoin]
  | cons r rs => simp [dotJoin, String.append_assoc]

/-- The accumulated `_Method` name is the dot-joined form of the segment
path. -/
lemma methodName_eq_dotJoin (rest : List String) (base : String) :
    methodName base rest = dotJoin (base :: rest) := by
  induction rest generalizing base with
  | nil => simp [methodName, dotJoin]
  | cons n rs ih =>
      rw [methodName, ih, dotJoin_extend]
      cases rs <;> simp [dotJoin]

/-- C2: when the method name is not registered or the looked-up handler
raises, the failure becomes an ERROR response carrying a description; the
callback still acknowledges and emits that response normally in serial mode
and enqueues it in threaded mode, and the receive-loop state is untouched,
so a Running server stays Running. -/
theorem server_captures_failures (d : FuncDict) (req : RpcRequest)
    (msg : Message) (st : ServerState)
    (hfail : dictGet d req.func_name = none ∨
      ∃ f e, dictGet d req.func_name = some f ∧
        f.call req.func_args = Except.error e) :
    (∃ desc, mkResponse (handlerOutcome d req) =
      ⟨Status.error, Value.vstr desc⟩) ∧
    Action.publish (mkResponse (handlerOutcome d req))
        msg.correlation_id msg.reply_to ∈ onRequest d (Body.rpc req) msg ∧
    Action.enqueue ⟨mkResponse (handlerOutcome d req),
        msg.correlation_id, msg.reply_to⟩ ∈ execFunc d req msg ∧
    (serverStep st (Body.rpc req) msg).1 = st ∧
    (ServerState.running st →
      ServerState.running (serverStep st (Body.rpc req) msg).1) := by
  have herr : ∃ desc, mkResponse (handlerOutcome d req) =
      ⟨Status.error, Value.vstr desc⟩ := by
    rcases hfail with h | ⟨f, e, hf, he⟩
    · exact ⟨"KeyError: " ++ req.func_name, by simp [handlerOutcome, h, mkResponse]⟩
    · exact ⟨e, by simp [handlerOutcome, hf, he, mkResponse]⟩
  exact ⟨herr, by simp [onRequest], by simp [execFunc], rfl, fun h => h⟩

/-- C2 witness: an unregistered method name on an empty registry. -/
theorem server_captures_failures_witness :
    (∃ desc, mkResponse (handlerOutcome [] ⟨"missing", []⟩) =
      ⟨Status.error, Value.vstr desc⟩) ∧
    Action.publish (mkResponse (handlerOutcome [] ⟨"missing", []⟩)) "c" "r" ∈
      onRequest [] (Body.rpc ⟨"missing", []⟩) ⟨"c", "r"⟩ ∧
    Action.enqueue ⟨mkResponse (handlerOutcome [] ⟨"missing", []⟩), "c", "r"⟩ ∈
      execFunc [] ⟨"missing", []⟩ ⟨"c", "r"⟩ ∧
    (serverStep ⟨[], false, true, false⟩ (Body.rpc ⟨"missing", []⟩)
      ⟨"c", "r"⟩).1 = ⟨[], false, true, false⟩ ∧
    (ServerState.running ⟨[], false, true, false⟩ →
      ServerState.running (serverStep ⟨[], false, true, false⟩
        (Body.rpc ⟨"missing", []⟩) ⟨"c", "r"⟩).1) :=
  server_captures_failures [] ⟨"missing", []⟩ ⟨"c", "r"⟩
    ⟨[], false, true, false⟩ (Or.inl rfl)

/-- C4: invoking a chained attribute path with positional arguments emits a
request whose method name is the dot-joined path and whose arguments are
exactly the given ones, and the server routes it to the handler registered
under that exact dotted name. -/
theorem nested_method_path_routing (s : String) (rest : List String)
    (args : List Value) (d : FuncDict) (f : PyObject)
    (hreg : dictGet d (dotJoin (s :: rest)) = some f) :
    emitRequest (methodName s rest) args = ⟨dotJoin (s :: rest), args⟩ ∧
    handlerOutcome d (emitRequest (methodName s rest) args) =
      f.call args := by
  have hname := methodName_eq_dotJoin rest s
  constructor
  · simp [emitRequest, hname]
  · simp [handlerOutcome, emitRequest, hname, hreg]

/-- C4 witness: the path a.b.c invoked with (1, 2) against a registry holding
a handler under the exact name "a.b.c". -/
theorem nested_method_path_routing_witness :
    dotJoin ["a", "b", "c"] = "a.b.c" ∧
    emitRequest (methodName "a" ["b", "c"]) [Value.vint 1, Value.vint 2] =
      ⟨dotJoin ["a", "b", "c"], [Value.vint 1, Value.vint 2]⟩ ∧
    handlerOutcome
      [("a.b.c", ⟨true, "f", fun _ => Except.ok (Value.vint 3)⟩)]
      (emitRequest (methodName "a" ["b", "c"])
        [Value.vint 1, Value.vint 2]) =
      Except.ok (Value.vint 3) := by
  have h := nested_method_path_routing "a" ["b", "c"]
    [Value.vint 1, Value.vint 2]
    [("a.b.c", ⟨true, "f", fun _ => Except.ok (Value.vint 3)⟩)]
    ⟨true, "f", fun _ => Except.ok (Value.vint 3)⟩
    (by simp [dotJoin, dictGet])
  exact ⟨by simp [dotJoin], h.1, by rw [h.2]⟩

/-- C5 counterexample: the publisher thread exits as soon as it observes the
stop flag; with two entries enqueued before the stop signal and the flag
observed after one iteration, the second entry is never published. -/
theorem publisher_stop_drop_counterexample :
    ¬ ((⟨⟨Status.ok, Value.vint 2⟩, "c2", "r2"⟩ : ResultSet) ∈
        publisherRun 1 [⟨⟨Status.ok, Value.vint 1⟩, "c1", "r1"⟩,
                        ⟨⟨Status.ok, Value.vint 2⟩, "c2", "r2"⟩]) := by
  decide

/-- C5 amended: the publisher publishes exactly the entries it dequeues
before observing the stop flag — the first `stopAt` entries of the queue;
entries still queued when the flag is observed are not published. -/
theorem publisher_publishes_dequeued_before_stop (stopAt : Nat)
    (q : List ResultSet) :
    publisherRun stopAt q = q.take stopAt := by
  induction stopAt generalizing q with
  | zero => rfl
  | succ n ih =>
      cases q with
      | nil => rfl
      | cons r rs => simp [publisherRun, ih]

/-- C6 counterexample: in the fatal-error teardown of a threaded server the
publisher is stopped before the consumer is cancelled, so the consumer
teardown does not precede the publisher teardown as the claim orders them. -/
theorem fatal_teardown_order_counterexample :
    ¬ (List.indexOf Action.cancelConsumer
         (onFatalError ⟨[], true, true, false⟩).2 <
       List.indexOf Action.stopPublisher
         (onFatalError ⟨[], true, true, false⟩).2) := by
  decide

/-- C6 amended: a non-timeout exception in the receive loop tears down the
publisher thread (threaded mode only), then the consumer, then the receive
connection, then the publish connection, transitions directly to Stopped,
and leaves the handler registry untouched. -/
theorem fatal_error_orderly_shutdown (st : ServerState) :
    (st.threaded = true → (onFatalError st).2 =
      [Action.stopPublisher, Action.cancelConsumer,
       Action.closeConnection, Action.closePublishConnection]) ∧
    (st.threaded = false → (onFatalError st).2 =
      [Action.cancelConsumer, Action.closeConnection,
       Action.closePublishConnection]) ∧
    (onFatalError st).1.is_stopped = true ∧
    (onFatalError st).1.func_dict = st.func_dict := by
  refine ⟨?_, ?_, rfl, rfl⟩
  · intro h
    simp [onFatalError, fatalTeardown, h]
  · intro h
    simp [onFatalError, fatalTeardown, h]

/-- C6 amended witness: the teardown trace of a concrete threaded server. -/
theorem fatal_error_orderly_shutdown_witness :
    (onFatalError ⟨[], true, true, false⟩).2 =
      [Action.stopPublisher, Action.cancelConsumer,
       Action.closeConnection, Action.closePublishConnection] ∧
    (onFatalError ⟨[], true, true, false⟩).1.is_stopped = true :=
  ⟨(fatal_error_orderly_shutdown ⟨[], true, true, false⟩).1 rfl,
   (fatal_error_orderly_shutdown ⟨[], true, true, false⟩).2.2.1⟩

/-- When the wait loop raises, the timeout was positive and the elapsed time
strictly exceeds it. -/
lemma waitForResult_pos_lt (t : ℚ) :
    ∀ fuel n e, waitForResult t fuel n = some e → 0 < t ∧ t < (e : ℚ) := by
  intro fuel
  induction fuel with
  | zero =>
      intro n e h
      simp [waitForResult] at h
  | succ f ih =>
      intro n e h
      simp only [waitForResult] at h
      split at h
      · rename_i hc
        injection h with h'
        subst h'
        exact hc
      · exact ih _ _ h

/-- When the wait loop raises, starting from an elapsed time not yet past the
timeout, the elapsed time at the raise is at most one tick past it. -/
lemma waitForResult_le_succ (t : ℚ) (ht : 0 < t) :
    ∀ (fuel n e : ℕ), (n : ℚ) ≤ t → waitForResult t fuel n = some e →
      (e : ℚ) ≤ t + 1 := by
  intro fuel
  induction fuel with
  | zero =>
      intro n e _ h
      simp [waitForResult] at h
  | succ f ih =>
      intro n e hn h
      simp only [waitForResult] at h
      split at h
      · injection h with h'
        subst h'
        push_cast
        linarith
      · rename_i hc
        push_neg at hc
        exact ih (n + 1) e (hc ht) h

/-- With a positive timeout the wait loop raises once enough ticks have
elapsed: it does not wait forever. -/
lemma waitForResult_isSome (t : ℚ) (ht : 0 < t) :
    ∀ (fuel n : ℕ), (n : ℚ) ≤ t → t < (n : ℚ) + fuel →
      (waitForResult t fuel n).isSome = true := by
  intro fuel
  induction fuel with
  | zero =>
      intro n hn hlt
      exfalso
      push_cast at hlt
      linarith
  | succ f ih =>
      intro n hn hlt
      simp only [waitForResult]
      split
      · rfl
      · rename_i hc
        push_neg at hc
        apply ih (n + 1) (hc ht)
        push_cast at hlt ⊢
        linarith

/-- C3: against a server that never responds, a call with timeout t > 0
raises RPC Timeout, and whenever the wait loop raises with elapsed time e,
the elapsed time satisfies t < e and e ≤ t plus one poll tick. -/
theorem wait_for_result_timeout_window (t : ℚ) (ht : 0 < t) :
    (∀ fuel e, waitForResult t fuel 0 = some e →
      t < (e : ℚ) ∧ (e : ℚ) ≤ t + 1) ∧
    ∃ fuel, (waitForResult t fuel 0).isSome = true := by
  constructor
  · intro fuel e h
    refine ⟨(waitForResult_pos_lt t fuel 0 e h).2, ?_⟩
    exact waitForResult_le_succ t ht fuel 0 e (by simpa using ht.le) h
  · refine ⟨⌈t⌉.toNat + 1, ?_⟩
    apply waitForResult_isSome t ht _ 0 (by simpa using ht.le)
    have h1 : t ≤ (⌈t⌉ : ℚ) := Int.le_ceil t
    have h0 : (0 : ℤ) ≤ ⌈t⌉ := Int.ceil_nonneg ht.le
    have h2 : ((⌈t⌉.toNat : ℕ) : ℚ) = ((⌈t⌉ : ℤ) : ℚ) := by
      exact_mod_cast congrArg (fun z : ℤ => (z : ℚ)) (Int.toNat_of_nonneg h0)
    push_cast
    linarith

/-- C3 witness: timeout one and a half seconds. -/
theorem wait_for_result_timeout_window_witness :
    0 < (3 / 2 : ℚ) ∧
    ((∀ fuel e, waitForResult (3 / 2) fuel 0 = some e →
        (3 / 2 : ℚ) < (e : ℚ) ∧ (e : ℚ) ≤ 3 / 2 + 1) ∧
      ∃ fuel, (waitForResult (3 / 2) fuel 0).isSome = true) :=
  ⟨by norm_num, wait_for_result_timeout_window (3 / 2) (by norm_num)⟩

end Callme
